import Mathlib

/-!
Verification of the mediaRenamerToTimestamp pipeline (Go) against its
natural-language specification.

The development shallowly embeds the authoritative revision of `main.go`
(the sequential, backup-based version: `backupDirectory`,
`countFilteredFiles`, `getVideoCreationTimeMetadata`, `renameWithCollision`,
`processFile`, `main`).  Filesystem and OS effects are made explicit:

* the filesystem is an association list from path to an opaque content id;
* `io.ReadSeeker` streams are byte lists with an explicit cursor;
* the EXIF decoder chain (`os.ReadFile` / `exif.Decode` / `MarshalJSON` /
  `json.Unmarshal`) is an oracle from content id to a tag mapping, exactly
  as the spec treats it (a black box yielding tag-name/value pairs);
* `time.Parse` / `time.Format` are modelled for the two fixed layouts the
  program uses (`2006:01:02 15:04:05` and the default desired format
  `2006-01-02 15.04.05`), including Go's range validation;
* `time.Unix(t, 0).Local()` is represented by the Unix-seconds integer it
  denotes (the `.Local()` call changes only the display timezone, not the
  instant), so the atom walker returns that integer.

Loops in the Go source (`for {}` in the atom walker, the collision probe
`for i := 1; i < colisionMax; i++`) are embedded with explicit fuel or
structural bounds; `fuelOut` marks executions that exceed the fuel, which
is how the walker's non-termination on malformed atoms is exhibited.
-/

namespace MediaRenamer

/-! ## Global configuration (the var block of main.go) -/

/-- Model of the Go constant `colisionMax = 1000000`. -/
def colisionMax : Nat := 1000000

/-- Model of `pictureExtensions`. -/
def pictureExtensions : List String :=
  ["JPG", "TIF", "BMP", "PNG", "JPEG", "GIF", "CR2", "ARW", "HEIC", "NEF"]

/-- Model of `movieExtensions`. -/
def movieExtensions : List String := ["MOV", "MP4"]

/-- Model of `backupSuffix = " - Backup Exif"`. -/
def backupSuffix : String := " - Backup Exif"

/-- Model of the Go constant `appleEpochAdjustment = 2082844800`. -/
def appleEpochAdjustment : Nat := 2082844800

/-- Model of the Go helper `inArray` in main.go. -/
def inArray (value : String) (array : List String) : Bool :=
  match array with
  | [] => false
  | v :: rest => if v = value then true else inArray value rest

/-! ## String and path helpers (strings / path/filepath library calls) -/

/-- Splits a character list at every occurrence of `c`; the Go
`strings.Split` semantics for a one-character separator (both separators
the program uses, `"."` and `"/"`, are one character). -/
def splitOnChar (c : Char) : List Char → List (List Char)
  | [] => [[]]
  | d :: rest =>
      match splitOnChar c rest with
      | [] => if d = c then [[], []] else [[d]]
      | first :: others =>
          if d = c then [] :: first :: others else (d :: first) :: others

/-- Model of Go `strings.Split(s, sep)` for a one-character separator. -/
def goSplit (c : Char) (s : String) : List String :=
  (splitOnChar c s.toList).map String.mk

/-- Model of Go `strings.HasSuffix`. -/
def strEndsWith (s suffix : String) : Bool :=
  decide (s.toList.drop (s.toList.length - suffix.toList.length) = suffix.toList)

/-- Model of Go `strings.HasPrefix`. -/
def strStartsWith (s pre : String) : Bool :=
  decide (s.toList.take pre.toList.length = pre.toList)

/-- Model of Go `strings.ToUpper` (ASCII, as the extension lists need). -/
def strToUpper (s : String) : String := String.mk (s.toList.map Char.toUpper)

/-- Model of Go `strings.ToLower` (ASCII, as the extension lists need). -/
def strToLower (s : String) : String := String.mk (s.toList.map Char.toLower)

/-- Model of Go `strings.TrimSuffix`. -/
def trimSuffix (s suffix : String) : String :=
  if strEndsWith s suffix then s.dropRight suffix.length else s

/-- Model of Go `strings.TrimPrefix`. -/
def trimPre (s pre : String) : String :=
  if strStartsWith s pre then s.drop pre.length else s

/-- Model of Go `filepath.Base` for clean, slash-separated paths:
the final path element. -/
def filepathBase (p : String) : String :=
  (goSplit '/' p).getLastD p

/-- Model of Go `filepath.Dir` for clean, slash-separated paths:
everything before the final element, or "." when there is no slash. -/
def filepathDir (p : String) : String :=
  let parts := goSplit '/' p
  if parts.length ≤ 1 then "." else String.intercalate "/" parts.dropLast

/-- Model of Go `filepath.Join` on a clean directory and a name. -/
def filepathJoin (dir name : String) : String := dir ++ "/" ++ name

/-- Model of Go `filepath.Ext`: the suffix starting at the final dot of the
final path element, or the empty string when that element has no dot. -/
def filepathExt (p : String) : String :=
  let parts := goSplit '.' (filepathBase p)
  if parts.length ≤ 1 then "" else "." ++ parts.getLastD ""

/-! ## Calendar timestamps and the two fixed time layouts -/

/-- A wall-clock timestamp as Go's `time.Time` presents it to the two layouts
the program uses (year, month, day, hour, minute, second). -/
structure GoTime where
  year : Nat
  month : Nat
  day : Nat
  hour : Nat
  minute : Nat
  second : Nat
deriving DecidableEq, Repr

/-- Leap-year test, as in Go's time package. -/
def isLeap (y : Nat) : Bool := y % 4 = 0 && (y % 100 ≠ 0 || y % 400 = 0)

/-- Days in a month, as in Go's `daysIn`. -/
def daysInMonth (y m : Nat) : Nat :=
  if m = 2 then (if isLeap y then 29 else 28)
  else if m = 4 ∨ m = 6 ∨ m = 9 ∨ m = 11 then 30
  else 31

/-- Range validation performed by Go's `time.Parse` (month, day, hour,
minute, second ranges). -/
def validGoTime (t : GoTime) : Bool :=
  1 ≤ t.month && t.month ≤ 12 && 1 ≤ t.day && t.day ≤ daysInMonth t.year t.month
    && t.hour ≤ 23 && t.minute ≤ 59 && t.second ≤ 59

/-- Reads exactly `n` decimal digits from the front of `cs`, accumulating
into `acc`; fails on a non-digit or early end of input.  This models the
fixed-width numeric fields of Go's `time.Parse`. -/
def readFixed (acc : Nat) : Nat → List Char → Option (Nat × List Char)
  | 0, cs => some (acc, cs)
  | _ + 1, [] => none
  | n + 1, c :: cs =>
      if c.isDigit then readFixed (acc * 10 + (c.toNat - 48)) n cs else none

/-- Consumes one expected literal character, as the separator handling of
Go's `time.Parse` does. -/
def expectChar (c : Char) : List Char → Option (List Char)
  | [] => none
  | d :: cs => if d = c then some cs else none

/-- Model of Go `time.Parse` for layouts of the shape
`2006<dSep>01<dSep>02 15<tSep>04<tSep>05`: a 4-digit year, 2-digit month,
day, hour, minute and second with literal separators, no trailing text,
and Go's range validation. -/
def parseWithSeps (dSep tSep : Char) (s : String) : Option GoTime :=
  match readFixed 0 4 s.toList with
  | none => none
  | some (y, cs) =>
  match expectChar dSep cs with
  | none => none
  | some cs =>
  match readFixed 0 2 cs with
  | none => none
  | some (mo, cs) =>
  match expectChar dSep cs with
  | none => none
  | some cs =>
  match readFixed 0 2 cs with
  | none => none
  | some (d, cs) =>
  match expectChar ' ' cs with
  | none => none
  | some cs =>
  match readFixed 0 2 cs with
  | none => none
  | some (h, cs) =>
  match expectChar tSep cs with
  | none => none
  | some cs =>
  match readFixed 0 2 cs with
  | none => none
  | some (mi, cs) =>
  match expectChar tSep cs with
  | none => none
  | some cs =>
  match readFixed 0 2 cs with
  | none => none
  | some (sec, cs) =>
  if cs.isEmpty && validGoTime ⟨y, mo, d, h, mi, sec⟩ then
    some ⟨y, mo, d, h, mi, sec⟩
  else none

/-- Model of `time.Parse("2006:01:02 15:04:05", s)`, the EXIF layout. -/
def parseExifTime (s : String) : Option GoTime := parseWithSeps ':' ':' s

/-- Model of `time.Parse(fmtDesired, s)` for the default desired format
`2006-01-02 15.04.05`. -/
def parseDesired (s : String) : Option GoTime := parseWithSeps '-' '.' s

/-- Two-digit zero-padded decimal rendering, as Go's `Format` renders the
`01`, `02`, `15`, `04`, `05` layout fields. -/
def pad2 (n : Nat) : String :=
  ⟨[Nat.digitChar (n / 10 % 10), Nat.digitChar (n % 10)]⟩

/-- Four-digit zero-padded decimal rendering, as Go's `Format` renders the
`2006` layout field for years 0–9999. -/
def pad4 (n : Nat) : String :=
  ⟨[Nat.digitChar (n / 1000 % 10), Nat.digitChar (n / 100 % 10),
    Nat.digitChar (n / 10 % 10), Nat.digitChar (n % 10)]⟩

/-- Model of `timeInfo.Format(fmtDesired)` for the default desired format
`2006-01-02 15.04.05`. -/
def formatDesired (t : GoTime) : String :=
  pad4 t.year ++ "-" ++ pad2 t.month ++ "-" ++ pad2 t.day ++ " "
    ++ pad2 t.hour ++ "." ++ pad2 t.minute ++ "." ++ pad2 t.second

/-! ## renameWithCollision -/

/-- Model of the probe loop `for i := 1; i < colisionMax; i++` inside
`renameWithCollision`.  `doesFileExist` models `extensions.DoesFileExist`;
`fuel` is the number of remaining loop iterations and `i` the current
suffix counter. -/
def collisionLoop (doesFileExist : String → Bool) (dir targetBase ext : String) :
    Nat → Nat → Except String String
  | _, 0 => .error "no available filename after many attempts"
  | i, fuel + 1 =>
      let candidate := filepathJoin dir (targetBase ++ "-" ++ toString i ++ ext)
      if doesFileExist candidate then
        collisionLoop doesFileExist dir targetBase ext (i + 1) fuel
      else .ok candidate

/-- Model of `renameWithCollision(src, targetBase, ext)` from main.go,
parameterized by the filesystem existence check it consults. -/
def renameWithCollision (doesFileExist : String → Bool)
    (src targetBase ext : String) : Except String String :=
  let dir := filepathDir src
  let candidate := filepathJoin dir (targetBase ++ ext)
  if doesFileExist candidate then
    collisionLoop doesFileExist dir targetBase ext 1 (colisionMax - 1)
  else .ok candidate

/-! ## The QuickTime atom walker (`getVideoCreationTimeMetadata`) -/

/-- A seekable byte stream (`io.ReadSeeker`): the underlying bytes and the
current cursor position. -/
structure MediaStream where
  data : List Nat
  pos : Nat
deriving DecidableEq, Repr

/-- The four-byte tag `"moov"` (movieResourceAtomType). -/
def moovTag : List Nat := [109, 111, 111, 118]

/-- The four-byte tag `"mvhd"` (movieHeaderAtomType). -/
def mvhdTag : List Nat := [109, 118, 104, 100]

/-- The four-byte tag `"rmra"` (referenceMovieAtomType). -/
def rmraTag : List Nat := [114, 109, 114, 97]

/-- The four-byte tag `"cmov"` (compressedMovieAtomType). -/
def cmovTag : List Nat := [99, 109, 111, 118]

/-- Model of `videoBuffer.Read(buf)` for an 8-byte buffer against a
file/bytes.Reader-style stream: at end of stream it returns `io.EOF`
(`none`); otherwise it copies `min 8 remaining` bytes into the front of
`buf` (any tail of `buf` keeps its previous contents, as in Go, where the
returned byte count is ignored by the caller) and advances the cursor. -/
def streamRead8 (s : MediaStream) (buf : List Nat) : Option (List Nat × MediaStream) :=
  let remaining := s.data.length - s.pos
  if remaining = 0 then none
  else
    let k := min 8 remaining
    some (((s.data.drop s.pos).take k) ++ buf.drop k, ⟨s.data, s.pos + k⟩)

/-- Model of `videoBuffer.Seek(delta, io.SeekCurrent)`: fails exactly when
the resulting absolute position would be negative, otherwise moves the
cursor (seeking past the end is allowed, as for files and bytes.Reader). -/
def streamSeek (s : MediaStream) (delta : Int) : Option MediaStream :=
  let newPos : Int := (s.pos : Int) + delta
  if newPos < 0 then none else some ⟨s.data, newPos.toNat⟩

/-- Model of `binary.BigEndian.Uint32` on a four-byte slice. -/
def beUint32 (bs : List Nat) : Nat :=
  match bs with
  | [a, b, c, d] => ((a * 256 + b) * 256 + c) * 256 + d
  | _ => 0

/-- Big-endian four-byte encoding of `n < 2^32`; inverse of `beUint32`. -/
def beBytes4 (n : Nat) : List Nat :=
  [n / 2 ^ 24 % 256, n / 2 ^ 16 % 256, n / 2 ^ 8 % 256, n % 256]

/-- Result of the moov-scan loop inside `getVideoCreationTimeMetadata`:
either the loop breaks with the stream positioned after the moov header,
or a read/seek error is returned, or the fuel runs out (the Go loop is
still running after that many iterations). -/
inductive ScanResult where
  | found (s : MediaStream) (buf : List Nat)
  | readErr
  | seekErr
  | fuelOut
deriving DecidableEq, Repr

/-- Model of the `for {}` scan loop of `getVideoCreationTimeMetadata`:
read an 8-byte header, break when bytes 5–8 equal `"moov"`, otherwise seek
`size − 8` bytes forward and retry.  One unit of fuel per iteration. -/
def scanMoov : Nat → MediaStream → List Nat → ScanResult
  | 0, _, _ => .fuelOut
  | fuel + 1, s, buf =>
      match streamRead8 s buf with
      | none => .readErr
      | some (buf', s') =>
          if buf'.drop 4 = moovTag then .found s' buf'
          else
            let atomSize := beUint32 (buf'.take 4)
            match streamSeek s' ((atomSize : Int) - 8) with
            | none => .seekErr
            | some s'' => scanMoov fuel s'' buf'

/-- Outcome of `getVideoCreationTimeMetadata`: `success t` stands for
`time.Unix(t, 0).Local(), nil` (the Unix-seconds instant; `.Local()` only
changes the display timezone), `failure` for a non-nil error, and
`fuelOut` for an execution still inside the scan loop after the given
number of iterations. -/
inductive WalkOut where
  | success (creationUnixSeconds : Int)
  | failure (msg : String)
  | fuelOut
deriving DecidableEq, Repr

/-- Model of `getVideoCreationTimeMetadata(videoBuffer)` from main.go.
The buffer starts as `make([]byte, 8)` (all zeros).  After the scan loop
finds the moov header it reads the first child atom's header, dispatches
on its tag, and for `mvhd` reads one more 8-byte window whose bytes 5–8
are the big-endian creation time in seconds since the Apple epoch. -/
def getVideoCreationTimeMetadata (fuel : Nat) (videoBuffer : MediaStream) : WalkOut :=
  match scanMoov fuel videoBuffer (List.replicate 8 0) with
  | .readErr => .failure "read error"
  | .seekErr => .failure "seek error"
  | .fuelOut => .fuelOut
  | .found s buf =>
      match streamRead8 s buf with
      | none => .failure "read error"
      | some (buf', s') =>
          let atomType := buf'.drop 4
          if atomType = mvhdTag then
            match streamRead8 s' buf' with
            | none => .failure "read error"
            | some (buf'', _) =>
                let appleEpoch : Int := beUint32 (buf''.drop 4)
                .success (appleEpoch - appleEpochAdjustment)
          else if atomType = cmovTag then .failure "Compressed video"
          else if atomType = rmraTag then .failure "Reference video"
          else .failure "Did not find movie header atom (mvhd)"

/-! ## processFile -/

/-- The OS-level effects `processFile` performs, as oracles:
`fileExists` models `extensions.DoesFileExist`; `videoMeta` models
`os.Open` followed by `getVideoCreationTimeMetadata` (yielding the
wall-clock form of `timeInfo` or the error); `exifFields` models the
`os.ReadFile` / `exif.Decode` / `MarshalJSON` / `json.Unmarshal` chain
(yielding the decoded tag mapping or the first error's message);
`renameOk` models whether `os.Rename` succeeds. -/
structure Env where
  fileExists : String → Bool
  videoMeta : String → Except String GoTime
  exifFields : String → Except String (List (String × String))
  renameOk : String → String → Bool

/-- Observable outcome of one `processFile` call: an error line on stderr
(no rename attempted), a successful rename to `target`, a failed
`os.Rename` to `target`, or no change because the name already matches. -/
inductive ProcOut where
  | errorLogged (msg : String)
  | renamed (target : String)
  | renameFailed (target : String)
  | noChange
deriving DecidableEq, Repr

/-- Model of the movie-branch tail of `processFile`: format the timestamp,
compare against the current base name with the extension trimmed, and
rename through `renameWithCollision` when they differ. -/
def movieRename (env : Env) (fileWork baseName extLowerDot : String)
    (timeInfo : GoTime) : ProcOut :=
  let potentialName := formatDesired timeInfo
  if trimSuffix baseName extLowerDot ≠ potentialName then
    match renameWithCollision env.fileExists fileWork potentialName extLowerDot with
    | .error e =>
        .errorLogged ("Could not resolve collision for: " ++ fileWork ++ ": " ++ e)
    | .ok target =>
        if env.renameOk fileWork target then .renamed target else .renameFailed target
  else .noChange

/-- Model of the image-branch tail of `processFile` after a timestamp has
been parsed: format it, compare against the full current base name, and
rename through `renameWithCollision` when they differ. -/
def imageRename (env : Env) (fileWork baseName extLowerDot : String)
    (timeInfo : GoTime) : ProcOut :=
  let potentialName := formatDesired timeInfo
  if baseName ≠ potentialName ++ extLowerDot then
    match renameWithCollision env.fileExists fileWork potentialName extLowerDot with
    | .error e =>
        .errorLogged ("Could not resolve collision for " ++ fileWork ++ ": " ++ e)
    | .ok target =>
        if env.renameOk fileWork target then .renamed target else .renameFailed target
  else .noChange

/-- Model of the EXIF field selection of `processFile` (the
`DateTimeOriginal` / `DateTime` chain): prefer `DateTimeOriginal`, fall
back to `DateTime`, report when neither is present; a parse failure of the
selected field is reported and ends processing of this file. -/
def imageFromFields (env : Env) (fileWork baseName extLowerDot : String)
    (fields : List (String × String)) : ProcOut :=
  match List.lookup "DateTimeOriginal" fields with
  | some v =>
      match parseExifTime v with
      | none => .errorLogged ("Failed to parse EXIF date field for " ++ fileWork)
      | some timeInfo => imageRename env fileWork baseName extLowerDot timeInfo
  | none =>
      match List.lookup "DateTime" fields with
      | some v =>
          match parseExifTime v with
          | none => .errorLogged ("Failed to parse EXIF date field for " ++ fileWork)
          | some timeInfo => imageRename env fileWork baseName extLowerDot timeInfo
      | none => .errorLogged ("No suitable EXIF date field found for " ++ fileWork)

/-- Model of `processFile(fileWork, movieExtensions, stdErr)` from main.go:
split the base name on dots, reject extension-less names, route movie
extensions to the atom walker and everything else to the EXIF chain. -/
def processFile (env : Env) (fileWork : String) : ProcOut :=
  let baseName := filepathBase fileWork
  let pieces := goSplit '.' baseName
  if pieces.length < 2 then
    .errorLogged ("Skipping file without extension: " ++ fileWork)
  else
    let extUpper := strToUpper (pieces.getLastD "")
    let extLowerDot := "." ++ strToLower (pieces.getLastD "")
    if inArray extUpper movieExtensions then
      match env.videoMeta fileWork with
      | .error e =>
          .errorLogged ("Could not read timestamp on movie file " ++ fileWork ++ ": " ++ e)
      | .ok timeInfo => movieRename env fileWork baseName extLowerDot timeInfo
    else
      match env.exifFields fileWork with
      | .error e => .errorLogged e
      | .ok fields => imageFromFields env fileWork baseName extLowerDot fields

/-! ## Filesystem model and the orchestrator (`main`) -/

/-- The filesystem as `main` observes it: an association list from absolute
file path to an opaque content id (directories are implicit). -/
abbrev FS := List (String × Nat)

/-- Path lookup in the modelled filesystem. -/
def lookupFS (fs : FS) (p : String) : Option Nat :=
  match fs with
  | [] => none
  | (q, c) :: rest => if q = p then some c else lookupFS rest p

/-- True when path `p` denotes a file strictly inside directory `dir`
(component-aware: `p` extends `dir ++ "/"`).  This models the scope of
`filepath.Walk(dir, ...)` over regular files. -/
def underDir (dir p : String) : Bool :=
  decide (p.toList.take (dir.toList.length + 1) = dir.toList ++ ['/'])

/-- The backup sibling `filepath.Join(filepath.Dir(abs), filepath.Base(abs)
+ backupSuffix)` for a clean absolute `root` without trailing slash. -/
def backupRoot (root : String) : String := root ++ backupSuffix

/-- Model of a successful `backupDirectory(originalAbsPath)` walk: every
file under `root` is copied to the same relative path under
`backupRoot root`, contents preserved.  Returns the extended filesystem
and the backup path. -/
def backupDirectory (fs : FS) (root : String) : FS × String :=
  (fs ++ (fs.filter fun pc => underDir root pc.1).map
      (fun pc => (backupRoot root ++ String.mk (pc.1.toList.drop root.toList.length), pc.2)),
   backupRoot root)

/-- Model of `recurseFiles(dir)`: all regular files below `dir`, in walk
order. -/
def recurseFiles (fs : FS) (dir : String) : List String :=
  (fs.filter fun pc => underDir dir pc.1).map (·.1)

/-- Model of `countFilteredFiles(directory)` applied to an enumerated list
of file paths: count those whose extension, upper-cased and stripped of
the leading dot, is in the picture or movie extension list. -/
def countFilteredFiles (paths : List String) : Nat :=
  (paths.filter fun p =>
    let ext := strToUpper (trimPre (filepathExt (filepathBase p)) ".")
    inArray ext pictureExtensions || inArray ext movieExtensions).length

/-- Per-file decision of the enumeration loop in `main` (lines 704–717):
non-media extensions are ignored, media files whose base name without the
(lower-cased) extension parses under the desired format are skipped, the
rest are handed to `processFile`. -/
inductive FileDisposition where
  | notMedia
  | alreadyNamed
  | process
deriving DecidableEq, Repr

/-- Model of the filter-and-skip logic of the loop body in `main`. -/
def mainDisposition (fileToWorkOn : String) : FileDisposition :=
  let ext := trimPre (strToUpper (filepathExt fileToWorkOn)) "."
  if inArray ext pictureExtensions || inArray ext movieExtensions then
    let baseName := filepathBase fileToWorkOn
    let nameNoExt := trimSuffix baseName ("." ++ strToLower ext)
    if (parseDesired nameNoExt).isSome then .alreadyNamed else .process
  else .notMedia

/-- The environmental inputs of one program run: the root directory (an
absolute clean path), whether the backup snapshot fails, and the metadata
oracles keyed by content id (content, and hence metadata, is preserved by
renames and copies). -/
structure RunConfig where
  root : String
  backupFails : Bool
  exifOf : Nat → Except String (List (String × String))
  videoOf : Nat → Except String GoTime

/-- The `Env` that `processFile` sees at a given filesystem state. -/
def envOf (cfg : RunConfig) (fs : FS) : Env where
  fileExists := fun p => (lookupFS fs p).isSome
  videoMeta := fun p =>
    match lookupFS fs p with
    | some c => cfg.videoOf c
    | none => .error ("Could not open movie file " ++ p)
  exifFields := fun p =>
    match lookupFS fs p with
    | some c => cfg.exifOf c
    | none => .error ("Could not read file " ++ p)
  renameOk := fun _ _ => true

/-- Applying a successful `os.Rename(src, dst)` to the filesystem. -/
def fsRename (fs : FS) (src dst : String) : FS :=
  fs.map fun pc => if pc.1 = src then (dst, pc.2) else pc

/-- Model of the processing loop of `main`: iterate over the enumerated
files (the list fixed before processing starts, as in the source), apply
the skip guard, run `processFile` against the current filesystem and apply
any rename it performs.  Returns the final filesystem and the list of
performed renames `(source, target)` in order. -/
def runFiles (cfg : RunConfig) : List String → FS → FS × List (String × String)
  | [], fs => (fs, [])
  | f :: rest, fs =>
      match mainDisposition f with
      | .process =>
          match processFile (envOf cfg fs) f with
          | .renamed target =>
              let (fs', evs) := runFiles cfg rest (fsRename fs f target)
              (fs', (f, target) :: evs)
          | _ => runFiles cfg rest fs
      | _ => runFiles cfg rest fs

/-- Outcome of a run of `main` (from the backup step on; argument parsing
and path normalization are upstream of the modelled components):
`fatalBackup` is `log.Fatalf("Backup failed: ...")` before any processing,
`completed` carries the performed renames, whether the backup tree was
removed, and the two verification counts. -/
inductive MainResult where
  | fatalBackup
  | completed (renames : List (String × String)) (backupRemoved : Bool)
      (originalCount backupCount : Nat)
deriving DecidableEq, Repr

/-- Model of `main` (lines 692–733 of the authoritative revision): take the
backup snapshot (aborting fatally when it fails), enumerate and process
all files, then count filtered files under the original and backup trees
and remove the backup tree exactly when the counts are equal.  Returns the
outcome and the final filesystem. -/
def runMain (cfg : RunConfig) (fs0 : FS) : MainResult × FS :=
  if cfg.backupFails then (.fatalBackup, fs0)
  else
    let (fs1, backupDirPath) := backupDirectory fs0 cfg.root
    let files := recurseFiles fs1 cfg.root
    let (fs2, evs) := runFiles cfg files fs1
    let originalCount := countFilteredFiles (recurseFiles fs2 cfg.root)
    let backupCount := countFilteredFiles (recurseFiles fs2 backupDirPath)
    if originalCount = backupCount then
      (.completed evs true originalCount backupCount,
       fs2.filter fun pc => !underDir backupDirPath pc.1)
    else (.completed evs false originalCount backupCount, fs2)

/-! ## Atoms as byte sequences, and walker lemmas -/

/-- A non-moov atom to be skipped by the walker: a 4-byte tag and a payload.
Its encoded form is `size(4, big-endian) ++ tag ++ payload` with
`size = payload.length + 8`, exactly the header arithmetic the walker's
seek relies on. -/
structure SkipAtom where
  tag : List Nat
  payload : List Nat

/-- Declared size of an encoded atom (header included). -/
def SkipAtom.size (a : SkipAtom) : Nat := a.payload.length + 8

/-- Byte encoding of an atom. -/
def SkipAtom.encode (a : SkipAtom) : List Nat := beBytes4 a.size ++ a.tag ++ a.payload

/-- Well-formedness of a skippable atom: a 4-byte non-moov tag and a size
that fits the 32-bit size field. -/
def SkipAtom.wf (a : SkipAtom) : Prop :=
  a.tag.length = 4 ∧ a.tag ≠ moovTag ∧ a.size < 2 ^ 32

instance (a : SkipAtom) : Decidable a.wf := by
  unfold SkipAtom.wf; infer_instance

/-- Byte encoding of a sequence of atoms. -/
def encodeAtoms (l : List SkipAtom) : List Nat := (l.map SkipAtom.encode).flatten

theorem beUint32_beBytes4 (n : Nat) (h : n < 2 ^ 32) : beUint32 (beBytes4 n) = n := by
  simp only [beUint32, beBytes4]
  omega

theorem beBytes4_length (n : Nat) : (beBytes4 n).length = 4 := by
  simp [beBytes4]

theorem drop4_of_4 (a b : List Nat) (ha : a.length = 4) : (a ++ b).drop 4 = b :=
  List.drop_left' ha

theorem take4_of_4 (a b : List Nat) (ha : a.length = 4) : (a ++ b).take 4 = a :=
  List.take_left' ha

/-- A full 8-byte read at position `pre.length` of `pre ++ suf` yields the
first 8 bytes of `suf` and advances the cursor by 8. -/
theorem streamRead8_at (pre suf buf : List Nat) (p : Nat) (hp : p = pre.length)
    (h8 : 8 ≤ suf.length) (hbuf : buf.length = 8) :
    streamRead8 ⟨pre ++ suf, p⟩ buf = some (suf.take 8, ⟨pre ++ suf, p + 8⟩) := by
  subst hp
  have hdrop : (pre ++ suf).drop pre.length = suf := List.drop_left pre suf
  have hlen : (pre ++ suf).length - pre.length = suf.length := by
    simp [List.length_append]
  have hbufdrop : buf.drop 8 = [] := by
    rw [← hbuf]; exact List.drop_length buf
  have hmin : min 8 suf.length = 8 := by omega
  unfold streamRead8
  simp only [hlen, hdrop, hmin, hbufdrop, List.append_nil]
  rw [if_neg (by omega)]

/-- A seek whose resulting position is non-negative succeeds. -/
theorem streamSeek_nonneg (d : List Nat) (p : Nat) (delta : Int)
    (h : 0 ≤ (p : Int) + delta) :
    streamSeek ⟨d, p⟩ delta = some ⟨d, ((p : Int) + delta).toNat⟩ := by
  show (if ((p : Int) + delta) < 0 then (none : Option MediaStream)
      else some ⟨d, ((p : Int) + delta).toNat⟩) = some ⟨d, ((p : Int) + delta).toNat⟩
  rw [if_neg (by omega)]

/-- The scan loop walks over any sequence of well-formed non-moov atoms and
breaks at the moov header, with one iteration of fuel per atom plus one for
the final read. -/
theorem scanMoov_to_found :
    ∀ (atoms : List SkipAtom), (∀ a ∈ atoms, a.wf) →
    ∀ (pre m4 rest buf : List Nat), m4.length = 4 → buf.length = 8 →
    scanMoov (atoms.length + 1)
        ⟨pre ++ (encodeAtoms atoms ++ (m4 ++ (moovTag ++ rest))), pre.length⟩ buf
      = .found
          ⟨pre ++ (encodeAtoms atoms ++ (m4 ++ (moovTag ++ rest))),
            pre.length + (encodeAtoms atoms).length + 8⟩
          (m4 ++ moovTag) := by
  intro atoms
  induction atoms with
  | nil =>
      intro _ pre m4 rest buf hm hbuf
      have henc : encodeAtoms ([] : List SkipAtom) = [] := by simp [encodeAtoms]
      rw [henc]
      simp only [List.nil_append, List.length_nil, List.length_cons]
      unfold scanMoov
      rw [streamRead8_at pre (m4 ++ (moovTag ++ rest)) buf pre.length rfl
        (by simp [hm, moovTag]; omega) hbuf]
      have htake : (m4 ++ (moovTag ++ rest)).take 8 = m4 ++ moovTag := by
        rw [← List.append_assoc]
        exact List.take_left' (by simp [hm, moovTag])
      simp only [htake]
      rw [if_pos (drop4_of_4 m4 moovTag hm)]
  | cons a atoms ih =>
      intro hwf pre m4 rest buf hm hbuf
      obtain ⟨htag, hnm, hsz⟩ := hwf a (List.mem_cons_self a atoms)
      have hb4 : (beBytes4 a.size).length = 4 := beBytes4_length a.size
      have h8hdr : (beBytes4 a.size ++ a.tag).length = 8 := by simp [hb4, htag]
      have hd : encodeAtoms (a :: atoms) ++ (m4 ++ (moovTag ++ rest))
          = (beBytes4 a.size ++ a.tag)
              ++ (a.payload ++ (encodeAtoms atoms ++ (m4 ++ (moovTag ++ rest)))) := by
        simp [encodeAtoms, SkipAtom.encode, List.append_assoc]
      rw [show ((a :: atoms).length + 1) = (atoms.length + 1) + 1 by simp]
      rw [hd]
      unfold scanMoov
      rw [streamRead8_at pre
        ((beBytes4 a.size ++ a.tag)
          ++ (a.payload ++ (encodeAtoms atoms ++ (m4 ++ (moovTag ++ rest)))))
        buf pre.length rfl (by simp [List.length_append, hb4, htag]; omega) hbuf]
      rw [List.take_left' h8hdr]
      have hne : ((beBytes4 a.size ++ a.tag).drop 4 = moovTag) = False := by
        rw [drop4_of_4 _ _ hb4]
        simp [hnm]
      simp only [hne, if_false, take4_of_4 _ _ hb4, beUint32_beBytes4 a.size hsz]
      rw [streamSeek_nonneg _ _ _ (by simp [SkipAtom.size]; omega)]
      have hpos : (((pre.length + 8 : Nat) : Int) + ((a.size : Int) - 8)).toNat
          = pre.length + (8 + a.payload.length) := by
        simp [SkipAtom.size]
        omega
      rw [hpos]
      have key := ih (fun b hb => hwf b (List.mem_cons_of_mem a hb))
        (pre ++ ((beBytes4 a.size ++ a.tag) ++ a.payload)) m4 rest
        (beBytes4 a.size ++ a.tag) hm h8hdr
      have e3 : (pre ++ ((beBytes4 a.size ++ a.tag) ++ a.payload)).length
            + (encodeAtoms atoms).length + 8
          = pre.length + (encodeAtoms (a :: atoms)).length + 8 := by
        simp [encodeAtoms, SkipAtom.encode, List.length_append, hb4, htag]
        omega
      rw [e3] at key
      have e2 : (pre ++ ((beBytes4 a.size ++ a.tag) ++ a.payload)).length
          = pre.length + (8 + a.payload.length) := by
        simp [List.length_append, hb4, htag]
        omega
      rw [e2] at key
      have e1 : (pre ++ ((beBytes4 a.size ++ a.tag) ++ a.payload))
            ++ (encodeAtoms atoms ++ (m4 ++ (moovTag ++ rest)))
          = pre ++ ((beBytes4 a.size ++ a.tag)
              ++ (a.payload ++ (encodeAtoms atoms ++ (m4 ++ (moovTag ++ rest))))) := by
        simp [List.append_assoc]
      rw [e1] at key
      exact key

/-- After skipping the well-formed atoms, the walker reads the moov atom's
first child header `c4 ++ t4` and dispatches on the tag `t4`. -/
theorem getVideo_child (atoms : List SkipAtom) (hwf : ∀ a ∈ atoms, a.wf)
    (m4 c4 t4 rest : List Nat) (hm : m4.length = 4) (hc : c4.length = 4)
    (ht : t4.length = 4) :
    getVideoCreationTimeMetadata (atoms.length + 1)
        ⟨encodeAtoms atoms ++ (m4 ++ (moovTag ++ (c4 ++ (t4 ++ rest)))), 0⟩
      = if t4 = mvhdTag then
          (match streamRead8
              ⟨encodeAtoms atoms ++ (m4 ++ (moovTag ++ (c4 ++ (t4 ++ rest)))),
                (encodeAtoms atoms).length + 8 + 8⟩ (c4 ++ t4) with
           | none => .failure "read error"
           | some (buf2, _) =>
               .success ((beUint32 (buf2.drop 4) : Int) - appleEpochAdjustment))
        else if t4 = cmovTag then .failure "Compressed video"
        else if t4 = rmraTag then .failure "Reference video"
        else .failure "Did not find movie header atom (mvhd)" := by
  have hsc := scanMoov_to_found atoms hwf [] m4 (c4 ++ (t4 ++ rest))
    (List.replicate 8 0) hm (by simp)
  simp only [List.nil_append, List.length_nil, Nat.zero_add] at hsc
  unfold getVideoCreationTimeMetadata
  rw [hsc]
  simp only []
  have e : encodeAtoms atoms ++ (m4 ++ (moovTag ++ (c4 ++ (t4 ++ rest))))
      = (encodeAtoms atoms ++ (m4 ++ moovTag)) ++ (c4 ++ (t4 ++ rest)) := by
    simp [List.append_assoc]
  rw [e]
  rw [streamRead8_at (encodeAtoms atoms ++ (m4 ++ moovTag)) (c4 ++ (t4 ++ rest))
    (m4 ++ moovTag) ((encodeAtoms atoms).length + 8)
    (by simp [List.length_append, hm, moovTag])
    (by simp [hc, ht]; omega)
    (by simp [List.length_append, hm, moovTag])]
  simp only []
  have htake : (c4 ++ (t4 ++ rest)).take 8 = c4 ++ t4 := by
    rw [← List.append_assoc]
    exact List.take_left' (by simp [hc, ht])
  simp only [htake, drop4_of_4 c4 t4 hc]

/-- C3: a stream of zero or more non-moov atoms, each skipped by the
`size − 8` seek, followed by a moov atom whose first child is an mvhd
header, makes `getVideoCreationTimeMetadata` return exactly the creation
time `T − 2082844800` in Unix seconds (i.e. `time.Unix(T − appleEpochAdjustment, 0)`
converted to local time), where `T` is the big-endian 32-bit integer in
bytes 5–8 of the 8-byte window read after the mvhd header. -/
theorem c3_walker_returns_creation_time
    (atoms : List SkipAtom) (hwf : ∀ a ∈ atoms, a.wf)
    (m4 v4 vf extra : List Nat) (hm : m4.length = 4) (hv : v4.length = 4)
    (hvf : vf.length = 4) (T : Nat) (hT : T < 2 ^ 32) :
    getVideoCreationTimeMetadata (atoms.length + 1)
        ⟨encodeAtoms atoms
            ++ (m4 ++ (moovTag ++ (v4 ++ (mvhdTag ++ (vf ++ (beBytes4 T ++ extra)))))), 0⟩
      = .success ((T : Int) - appleEpochAdjustment) := by
  rw [getVideo_child atoms hwf m4 v4 mvhdTag (vf ++ (beBytes4 T ++ extra)) hm hv (by rfl)]
  rw [if_pos rfl]
  have e : encodeAtoms atoms
        ++ (m4 ++ (moovTag ++ (v4 ++ (mvhdTag ++ (vf ++ (beBytes4 T ++ extra))))))
      = ((encodeAtoms atoms ++ (m4 ++ moovTag)) ++ (v4 ++ mvhdTag))
          ++ (vf ++ (beBytes4 T ++ extra)) := by
    simp [List.append_assoc]
  rw [e]
  rw [streamRead8_at ((encodeAtoms atoms ++ (m4 ++ moovTag)) ++ (v4 ++ mvhdTag))
    (vf ++ (beBytes4 T ++ extra)) (v4 ++ mvhdTag)
    ((encodeAtoms atoms).length + 8 + 8)
    (by simp [List.length_append, hm, hv, moovTag, mvhdTag])
    (by simp [hvf, beBytes4]; omega)
    (by simp [List.length_append, hv, mvhdTag])]
  have htake : (vf ++ (beBytes4 T ++ extra)).take 8 = vf ++ beBytes4 T := by
    rw [← List.append_assoc]
    exact List.take_left' (by simp [hvf, beBytes4])
  simp only [htake, drop4_of_4 vf (beBytes4 T) hvf, beUint32_beBytes4 T hT]

/-- C9 helper is `getVideo_child`; this is the claimed dispatch on a
non-mvhd first child of the moov atom. -/
theorem c9_non_mvhd_child_typed_error
    (atoms : List SkipAtom) (hwf : ∀ a ∈ atoms, a.wf)
    (m4 c4 childTag rest : List Nat) (hm : m4.length = 4) (hc : c4.length = 4)
    (ht : childTag.length = 4) (hne : childTag ≠ mvhdTag) :
    getVideoCreationTimeMetadata (atoms.length + 1)
        ⟨encodeAtoms atoms ++ (m4 ++ (moovTag ++ (c4 ++ (childTag ++ rest)))), 0⟩
      = .failure (if childTag = cmovTag then "Compressed video"
          else if childTag = rmraTag then "Reference video"
          else "Did not find movie header atom (mvhd)") := by
  rw [getVideo_child atoms hwf m4 c4 childTag rest hm hc ht]
  rw [if_neg hne]
  split_ifs <;> rfl

/-- One iteration of the scan loop on the malformed single atom
`size = 0, tag = "free"` returns the cursor to position 0 and continues:
the loop never terminates, whatever the fuel. -/
theorem scanMoov_zeroSize_loop (n : Nat) (buf : List Nat) (hbuf : buf.length = 8) :
    scanMoov n ⟨[0, 0, 0, 0, 102, 114, 101, 101], 0⟩ buf = .fuelOut := by
  induction n generalizing buf hbuf with
  | zero => rfl
  | succ n ih =>
      have hbufdrop : buf.drop 8 = [] := by
        rw [← hbuf]; exact List.drop_length buf
      unfold scanMoov
      have hread : streamRead8 ⟨[0, 0, 0, 0, 102, 114, 101, 101], 0⟩ buf
          = some ([0, 0, 0, 0, 102, 114, 101, 101],
              ⟨[0, 0, 0, 0, 102, 114, 101, 101], 8⟩) := by
        unfold streamRead8
        simp [hbufdrop]
      rw [hread]
      have hne : (([0, 0, 0, 0, 102, 114, 101, 101] : List Nat).drop 4 = moovTag)
          = False := by
        simp [moovTag]
      simp only [hne, if_false]
      have hseek : streamSeek ⟨[0, 0, 0, 0, 102, 114, 101, 101], 8⟩
          ((beUint32 (([0, 0, 0, 0, 102, 114, 101, 101] : List Nat).take 4) : Int) - 8)
          = some ⟨[0, 0, 0, 0, 102, 114, 101, 101], 0⟩ := by
        unfold streamSeek
        simp [beUint32]
      rw [hseek]
      exact ih _ (by rfl)

/-- C8: on the malformed stream consisting of a single atom whose size
field is 0 (less than the 8-byte header) and whose tag is `free`, the
walker returns neither a timestamp nor an error within any number of loop
iterations: the `size − 8` seek moves the cursor back to position 0 and the
loop rescans the same header forever.  The code never performs the
implausible-seek check the claim describes (a seek only fails on a negative
resulting position, which is unreachable once 8 bytes have been read). -/
theorem c8_zero_size_atom_loops_forever (fuel : Nat) :
    getVideoCreationTimeMetadata fuel ⟨[0, 0, 0, 0, 102, 114, 101, 101], 0⟩
      = .fuelOut := by
  unfold getVideoCreationTimeMetadata
  rw [scanMoov_zeroSize_loop fuel (List.replicate 8 0) (by rfl)]

/-! ## Collision-probe lemmas -/

/-- If every probed suffix from `i` up to (excluding) `K` names an existing
file and suffix `K` does not, the probe loop returns the `K` candidate. -/
theorem collisionLoop_first_free (fe : String → Bool) (dir base ext : String) :
    ∀ (fuel i K : Nat), i ≤ K → K < i + fuel →
    (∀ j, i ≤ j → j < K →
      fe (filepathJoin dir (base ++ "-" ++ toString j ++ ext)) = true) →
    fe (filepathJoin dir (base ++ "-" ++ toString K ++ ext)) = false →
    collisionLoop fe dir base ext i fuel
      = .ok (filepathJoin dir (base ++ "-" ++ toString K ++ ext)) := by
  intro fuel
  induction fuel with
  | zero => intro i K h1 h2 _ _; omega
  | succ fuel ih =>
      intro i K h1 h2 hall hK
      simp only [collisionLoop]
      by_cases hi : i = K
      · subst hi
        simp [hK]
      · have hcur : fe (filepathJoin dir (base ++ "-" ++ toString i ++ ext)) = true :=
          hall i le_rfl (by omega)
        simp only [hcur, if_true]
        exact ih (i + 1) K (by omega) (by omega)
          (fun j hj1 hj2 => hall j (by omega) hj2) hK

/-- If every probed suffix within the fuel budget names an existing file,
the probe loop gives up with the collision-bound error. -/
theorem collisionLoop_all_exist (fe : String → Bool) (dir base ext : String) :
    ∀ (fuel i : Nat),
    (∀ j, i ≤ j → j < i + fuel →
      fe (filepathJoin dir (base ++ "-" ++ toString j ++ ext)) = true) →
    collisionLoop fe dir base ext i fuel
      = .error "no available filename after many attempts" := by
  intro fuel
  induction fuel with
  | zero => intro i _; rfl
  | succ fuel ih =>
      intro i h
      simp only [collisionLoop]
      have hcur : fe (filepathJoin dir (base ++ "-" ++ toString i ++ ext)) = true :=
        h i le_rfl (by omega)
      simp only [hcur, if_true]
      exact ih (i + 1) (fun j hj1 hj2 => h j (by omega) (by omega))

/-- C2: `renameWithCollision` returns `dir/base.ext` when that path does
not exist; otherwise the first free candidate among `dir/base-1.ext`,
`dir/base-2.ext`, … probed in increasing order below the configured bound
`colisionMax`; when every candidate exists it returns the collision error,
and in that case the caller performs no rename on the file. -/
theorem c2_renameWithCollision_first_free (fe : String → Bool)
    (src targetBase ext : String) :
    (fe (filepathJoin (filepathDir src) (targetBase ++ ext)) = false →
      renameWithCollision fe src targetBase ext
        = .ok (filepathJoin (filepathDir src) (targetBase ++ ext)))
    ∧ (∀ K, fe (filepathJoin (filepathDir src) (targetBase ++ ext)) = true →
        1 ≤ K → K < colisionMax →
        (∀ j, 1 ≤ j → j < K →
          fe (filepathJoin (filepathDir src)
            (targetBase ++ "-" ++ toString j ++ ext)) = true) →
        fe (filepathJoin (filepathDir src)
          (targetBase ++ "-" ++ toString K ++ ext)) = false →
        renameWithCollision fe src targetBase ext
          = .ok (filepathJoin (filepathDir src)
              (targetBase ++ "-" ++ toString K ++ ext)))
    ∧ (fe (filepathJoin (filepathDir src) (targetBase ++ ext)) = true →
        (∀ j, 1 ≤ j → j < colisionMax →
          fe (filepathJoin (filepathDir src)
            (targetBase ++ "-" ++ toString j ++ ext)) = true) →
        renameWithCollision fe src targetBase ext
          = .error "no available filename after many attempts")
    ∧ (∀ (env : Env) (fileWork baseName extLowerDot : String) (t : GoTime) (err : String),
        renameWithCollision env.fileExists fileWork (formatDesired t) extLowerDot
          = .error err →
        ∀ target, imageRename env fileWork baseName extLowerDot t ≠ .renamed target
          ∧ imageRename env fileWork baseName extLowerDot t ≠ .renameFailed target) := by
  refine ⟨?_, ?_, ?_, ?_⟩
  · intro h
    simp only [renameWithCollision, h]
    rfl
  · intro K h0 h1 h2 hall hK
    simp only [renameWithCollision, h0, if_true]
    exact collisionLoop_first_free fe (filepathDir src) targetBase ext
      (colisionMax - 1) 1 K h1
      (by have : colisionMax = 1000000 := rfl; omega) hall hK
  · intro h0 hall
    simp only [renameWithCollision, h0, if_true]
    exact collisionLoop_all_exist fe (filepathDir src) targetBase ext
      (colisionMax - 1) 1
      (fun j hj1 hj2 => hall j hj1
        (by have : colisionMax = 1000000 := rfl; omega))
  · intro env fileWork baseName extLowerDot t err h target
    simp only [imageRename]
    split_ifs with hb
    · rw [h]
      exact ⟨by simp, by simp⟩
    · exact ⟨by simp, by simp⟩

/-- Witness for C2: with `dir/b.jpg` and `dir/b-1.jpg` existing, the
resolver picks `dir/b-2.jpg`; derived by applying the theorem at this
concrete input. -/
theorem c2_renameWithCollision_first_free_witness :
    renameWithCollision (fun s => decide (s = "/d/b.jpg" ∨ s = "/d/b-1.jpg"))
        "/d/a.jpg" "b" ".jpg"
      = .ok "/d/b-2.jpg" := by
  have h := (c2_renameWithCollision_first_free
    (fun s => decide (s = "/d/b.jpg" ∨ s = "/d/b-1.jpg")) "/d/a.jpg" "b" ".jpg").2.1
    2 (by decide) (by decide) (by decide)
    (by
      intro j hj1 hj2
      have : j = 1 := by omega
      subst this
      decide)
    (by decide)
  exact h

/-! ## processFile lemmas: EXIF field priority and extension handling -/

/-- On a file with an extension that is not a movie extension, and a
successfully decoded EXIF mapping, `processFile` runs the EXIF field
selection on that mapping. -/
theorem processFile_image (env : Env) (f : String) (m : List (String × String))
    (hp : 2 ≤ (goSplit '.' (filepathBase f)).length)
    (hmov : inArray (strToUpper ((goSplit '.' (filepathBase f)).getLastD ""))
      movieExtensions = false)
    (hex : env.exifFields f = .ok m) :
    processFile env f
      = imageFromFields env f (filepathBase f)
          ("." ++ strToLower ((goSplit '.' (filepathBase f)).getLastD "")) m := by
  simp only [processFile]
  rw [if_neg (by omega)]
  simp only [hmov, hex]
  rfl

/-- C6: on a decoded EXIF mapping, `processFile` parses `DateTimeOriginal`
when present, otherwise parses `DateTime` when present, and otherwise
reports that no usable timestamp field exists and leaves the file
unrenamed. -/
theorem c6_exif_priority (env : Env) (f : String) (m : List (String × String))
    (hp : 2 ≤ (goSplit '.' (filepathBase f)).length)
    (hmov : inArray (strToUpper ((goSplit '.' (filepathBase f)).getLastD ""))
      movieExtensions = false)
    (hex : env.exifFields f = .ok m) :
    (∀ v, List.lookup "DateTimeOriginal" m = some v →
      processFile env f
        = match parseExifTime v with
          | none => .errorLogged ("Failed to parse EXIF date field for " ++ f)
          | some t => imageRename env f (filepathBase f)
              ("." ++ strToLower ((goSplit '.' (filepathBase f)).getLastD "")) t)
    ∧ (List.lookup "DateTimeOriginal" m = none →
        ∀ v, List.lookup "DateTime" m = some v →
        processFile env f
          = match parseExifTime v with
            | none => .errorLogged ("Failed to parse EXIF date field for " ++ f)
            | some t => imageRename env f (filepathBase f)
                ("." ++ strToLower ((goSplit '.' (filepathBase f)).getLastD "")) t)
    ∧ (List.lookup "DateTimeOriginal" m = none →
        List.lookup "DateTime" m = none →
        processFile env f
          = .errorLogged ("No suitable EXIF date field found for " ++ f)) := by
  rw [processFile_image env f m hp hmov hex]
  refine ⟨?_, ?_, ?_⟩
  · intro v hv
    simp only [imageFromFields, hv]
  · intro h0 v hv
    simp only [imageFromFields, h0, hv]
  · intro h0 h1
    simp only [imageFromFields, h0, h1]

/-- Witness for C6: with both tags present, the mapping's
`DateTimeOriginal` value is the one that determines the timestamp. -/
def env6 : Env where
  fileExists := fun _ => false
  videoMeta := fun _ => .error "not a video"
  exifFields := fun _ =>
    .ok [("DateTimeOriginal", "2020:01:01 00:00:00"), ("DateTime", "2019:05:05 05:05:05")]
  renameOk := fun _ _ => true

theorem c6_exif_priority_witness :
    processFile env6 "/d/p.jpg"
      = imageRename env6 "/d/p.jpg" (filepathBase "/d/p.jpg")
          ("." ++ strToLower ((goSplit '.' (filepathBase "/d/p.jpg")).getLastD ""))
          ⟨2020, 1, 1, 0, 0, 0⟩ := by
  have h := (c6_exif_priority env6 "/d/p.jpg"
    [("DateTimeOriginal", "2020:01:01 00:00:00"), ("DateTime", "2019:05:05 05:05:05")]
    (by decide) (by decide) rfl).1 "2020:01:01 00:00:00" (by decide)
  rw [h]
  decide

/-- C10: when `DateTimeOriginal` is present but malformed, `processFile`
reports the parse failure and returns without consulting `DateTime`
(whatever that tag holds), leaving the file unrenamed. -/
theorem c10_malformed_primary_field_is_final (env : Env) (f : String)
    (m : List (String × String)) (v : String)
    (hp : 2 ≤ (goSplit '.' (filepathBase f)).length)
    (hmov : inArray (strToUpper ((goSplit '.' (filepathBase f)).getLastD ""))
      movieExtensions = false)
    (hex : env.exifFields f = .ok m)
    (hdto : List.lookup "DateTimeOriginal" m = some v)
    (hbad : parseExifTime v = none) :
    processFile env f = .errorLogged ("Failed to parse EXIF date field for " ++ f) := by
  rw [processFile_image env f m hp hmov hex]
  simp only [imageFromFields, hdto, hbad]

/-- Witness for C10: `DateTimeOriginal` is malformed while `DateTime`
holds a well-formed timestamp; the outcome is still the parse failure. -/
def env10 : Env where
  fileExists := fun _ => false
  videoMeta := fun _ => .error "not a video"
  exifFields := fun _ =>
    .ok [("DateTimeOriginal", "2020-01-01"), ("DateTime", "2019:05:05 05:05:05")]
  renameOk := fun _ _ => true

theorem c10_malformed_primary_field_is_final_witness :
    processFile env10 "/d/p.jpg"
      = .errorLogged ("Failed to parse EXIF date field for " ++ "/d/p.jpg") :=
  c10_malformed_primary_field_is_final env10 "/d/p.jpg"
    [("DateTimeOriginal", "2020-01-01"), ("DateTime", "2019:05:05 05:05:05")]
    "2020-01-01" (by decide) (by decide) rfl (by decide) (by decide)

/-! ## Shape of every rename target: the extension is lower-cased -/

/-- Every successful collision probe returns a candidate of the form
`dir/(base with optional suffix) ++ ext`. -/
theorem collisionLoop_ok_shape (fe : String → Bool) (dir base ext : String) :
    ∀ (fuel i : Nat) (c : String), collisionLoop fe dir base ext i fuel = .ok c →
    ∃ nb, c = filepathJoin dir (nb ++ ext) := by
  intro fuel
  induction fuel with
  | zero => intro i c h; cases h
  | succ fuel ih =>
      intro i c h
      simp only [collisionLoop] at h
      split_ifs at h with hc
      · exact ih (i + 1) c h
      · refine ⟨base ++ "-" ++ toString i, ?_⟩
        injection h with h'
        exact h'.symm

/-- Every path returned by `renameWithCollision` is the source's directory
joined with some base name followed by the supplied extension. -/
theorem renameWithCollision_ok_shape (fe : String → Bool)
    (src targetBase ext c : String)
    (h : renameWithCollision fe src targetBase ext = .ok c) :
    ∃ nb, c = filepathJoin (filepathDir src) (nb ++ ext) := by
  simp only [renameWithCollision] at h
  split_ifs at h with hc
  · exact collisionLoop_ok_shape fe (filepathDir src) targetBase ext
      (colisionMax - 1) 1 c h
  · refine ⟨targetBase, ?_⟩
    injection h with h'
    exact h'.symm

theorem imageRename_renamed_shape (env : Env) (fw bn eld : String) (t : GoTime)
    (target : String) (h : imageRename env fw bn eld t = .renamed target) :
    ∃ nb, target = filepathJoin (filepathDir fw) (nb ++ eld) := by
  simp only [imageRename] at h
  split_ifs at h
  · cases hrw : renameWithCollision env.fileExists fw (formatDesired t) eld with
    | error e => rw [hrw] at h; simp at h
    | ok tgt =>
        rw [hrw] at h
        simp only [] at h
        split_ifs at h
        injection h with h'
        rw [← h']
        exact renameWithCollision_ok_shape env.fileExists fw (formatDesired t) eld
          tgt hrw

theorem movieRename_renamed_shape (env : Env) (fw bn eld : String) (t : GoTime)
    (target : String) (h : movieRename env fw bn eld t = .renamed target) :
    ∃ nb, target = filepathJoin (filepathDir fw) (nb ++ eld) := by
  simp only [movieRename] at h
  split_ifs at h
  · cases hrw : renameWithCollision env.fileExists fw (formatDesired t) eld with
    | error e => rw [hrw] at h; simp at h
    | ok tgt =>
        rw [hrw] at h
        simp only [] at h
        split_ifs at h
        injection h with h'
        rw [← h']
        exact renameWithCollision_ok_shape env.fileExists fw (formatDesired t) eld
          tgt hrw

theorem imageFromFields_renamed_shape (env : Env) (fw bn eld : String)
    (m : List (String × String)) (target : String)
    (h : imageFromFields env fw bn eld m = .renamed target) :
    ∃ nb, target = filepathJoin (filepathDir fw) (nb ++ eld) := by
  unfold imageFromFields at h
  cases h1 : List.lookup "DateTimeOriginal" m with
  | some v =>
      rw [h1] at h
      cases h2 : parseExifTime v with
      | none => simp [h2] at h
      | some t =>
          simp only [h2] at h
          exact imageRename_renamed_shape env fw bn eld t target h
  | none =>
      rw [h1] at h
      cases h2 : List.lookup "DateTime" m with
      | some v =>
          simp only [h2] at h
          cases h3 : parseExifTime v with
          | none => simp [h3] at h
          | some t =>
              simp only [h3] at h
              exact imageRename_renamed_shape env fw bn eld t target h
      | none => simp [h2] at h

/-- C7 (amended): every rename performed by `processFile` targets the
source's directory with some new base name followed by a dot and the
LOWER-CASED original extension; the extension is preserved only up to
case, not verbatim. -/
theorem c7_amended_extension_lowercased (env : Env) (f target : String)
    (h : processFile env f = .renamed target) :
    ∃ newBase, target
      = filepathJoin (filepathDir f)
          (newBase ++ ("." ++ strToLower ((goSplit '.' (filepathBase f)).getLastD ""))) := by
  simp only [processFile] at h
  split_ifs at h with h1 h2
  · cases hv : env.videoMeta f with
    | error e => simp [hv] at h
    | ok t =>
        simp only [hv] at h
        exact movieRename_renamed_shape env f (filepathBase f) _ t target h
  · cases he : env.exifFields f with
    | error e => simp [he] at h
    | ok m =>
        simp only [he] at h
        exact imageFromFields_renamed_shape env f (filepathBase f) _ m target h

/-- C7 counterexample: a source file named `photo.JPG` is renamed to a
target whose extension is `.jpg`, not the verbatim `.JPG` of the source:
the rename changes the extension's characters. -/
def env7 : Env where
  fileExists := fun _ => false
  videoMeta := fun _ => .error "not a video"
  exifFields := fun _ => .ok [("DateTimeOriginal", "2020:01:01 00:00:00")]
  renameOk := fun _ _ => true

theorem c7_counterexample_uppercase_extension :
    processFile env7 "/d/photo.JPG" = .renamed "/d/2020-01-01 00.00.00.jpg"
    ∧ filepathExt "/d/2020-01-01 00.00.00.jpg" ≠ filepathExt "/d/photo.JPG" := by
  constructor
  · decide
  · decide

/-- Witness for the amended C7, applying it at the concrete rename above. -/
theorem c7_amended_extension_lowercased_witness :
    ∃ newBase, "/d/2020-01-01 00.00.00.jpg"
      = filepathJoin (filepathDir "/d/photo.JPG")
          (newBase ++ ("." ++ strToLower
            ((goSplit '.' (filepathBase "/d/photo.JPG")).getLastD ""))) :=
  c7_amended_extension_lowercased env7 "/d/photo.JPG"
    "/d/2020-01-01 00.00.00.jpg" (by decide)

/-! ## Round trip of the desired format: format then parse -/

theorem readFixed_digit (acc d n : Nat) (cs : List Char) (hd : d < 10) :
    readFixed acc (n + 1) (Nat.digitChar d :: cs) = readFixed (acc * 10 + d) n cs := by
  have h1 : (Nat.digitChar d).isDigit = true := by interval_cases d <;> decide
  have h2 : (Nat.digitChar d).toNat - 48 = d := by interval_cases d <;> decide
  simp [readFixed, h1, h2]

theorem readFixed_pad2 (n : Nat) (cs : List Char) (hn : n ≤ 99) :
    readFixed 0 2 ((pad2 n).toList ++ cs) = some (n, cs) := by
  have e : (pad2 n).toList ++ cs
      = Nat.digitChar (n / 10 % 10) :: Nat.digitChar (n % 10) :: cs := rfl
  rw [e, readFixed_digit 0 (n / 10 % 10) 1 _ (Nat.mod_lt _ (by norm_num)),
    readFixed_digit _ (n % 10) 0 _ (Nat.mod_lt _ (by norm_num))]
  simp only [readFixed]
  have : (0 * 10 + n / 10 % 10) * 10 + n % 10 = n := by omega
  rw [this]

theorem readFixed_pad4 (n : Nat) (cs : List Char) (hn : n ≤ 9999) :
    readFixed 0 4 ((pad4 n).toList ++ cs) = some (n, cs) := by
  have e : (pad4 n).toList ++ cs
      = Nat.digitChar (n / 1000 % 10) :: Nat.digitChar (n / 100 % 10)
          :: Nat.digitChar (n / 10 % 10) :: Nat.digitChar (n % 10) :: cs := rfl
  rw [e, readFixed_digit 0 _ 3 _ (Nat.mod_lt _ (by norm_num)),
    readFixed_digit _ _ 2 _ (Nat.mod_lt _ (by norm_num)),
    readFixed_digit _ _ 1 _ (Nat.mod_lt _ (by norm_num)),
    readFixed_digit _ _ 0 _ (Nat.mod_lt _ (by norm_num))]
  simp only [readFixed]
  have : (((0 * 10 + n / 1000 % 10) * 10 + n / 100 % 10) * 10 + n / 10 % 10) * 10
      + n % 10 = n := by omega
  rw [this]

/-- Evaluating `parseWithSeps` on a string of the exact padded shape that
`formatDesired` produces. -/
theorem parseWithSeps_eval (dSep tSep : Char) (y mo d h mi s : Nat)
    (str : String)
    (hy : y ≤ 9999) (hmo : mo ≤ 99) (hd : d ≤ 99) (hh : h ≤ 99)
    (hmi : mi ≤ 99) (hs : s ≤ 99)
    (hstr : str.toList
      = (pad4 y).toList ++ (dSep :: ((pad2 mo).toList ++ (dSep :: ((pad2 d).toList
          ++ (' ' :: ((pad2 h).toList ++ (tSep :: ((pad2 mi).toList
          ++ (tSep :: (pad2 s).toList)))))))))) :
    parseWithSeps dSep tSep str
      = if validGoTime ⟨y, mo, d, h, mi, s⟩ then some ⟨y, mo, d, h, mi, s⟩
        else none := by
  unfold parseWithSeps
  rw [hstr]
  rw [readFixed_pad4 y _ hy]
  simp only []
  rw [show expectChar dSep (dSep :: ((pad2 mo).toList ++ (dSep :: ((pad2 d).toList
      ++ (' ' :: ((pad2 h).toList ++ (tSep :: ((pad2 mi).toList
      ++ (tSep :: (pad2 s).toList))))))))) = some ((pad2 mo).toList
      ++ (dSep :: ((pad2 d).toList ++ (' ' :: ((pad2 h).toList
      ++ (tSep :: ((pad2 mi).toList ++ (tSep :: (pad2 s).toList))))))))
    from by simp [expectChar]]
  simp only []
  rw [readFixed_pad2 mo _ hmo]
  simp only []
  rw [show expectChar dSep (dSep :: ((pad2 d).toList ++ (' ' :: ((pad2 h).toList
      ++ (tSep :: ((pad2 mi).toList ++ (tSep :: (pad2 s).toList)))))))
      = some ((pad2 d).toList ++ (' ' :: ((pad2 h).toList
      ++ (tSep :: ((pad2 mi).toList ++ (tSep :: (pad2 s).toList))))))
    from by simp [expectChar]]
  simp only []
  rw [readFixed_pad2 d _ hd]
  simp only []
  rw [show expectChar ' ' (' ' :: ((pad2 h).toList
      ++ (tSep :: ((pad2 mi).toList ++ (tSep :: (pad2 s).toList)))))
      = some ((pad2 h).toList ++ (tSep :: ((pad2 mi).toList
      ++ (tSep :: (pad2 s).toList))))
    from by simp [expectChar]]
  simp only []
  rw [readFixed_pad2 h _ hh]
  simp only []
  rw [show expectChar tSep (tSep :: ((pad2 mi).toList ++ (tSep :: (pad2 s).toList)))
      = some ((pad2 mi).toList ++ (tSep :: (pad2 s).toList))
    from by simp [expectChar]]
  simp only []
  rw [readFixed_pad2 mi _ hmi]
  simp only []
  rw [show expectChar tSep (tSep :: (pad2 s).toList) = some ((pad2 s).toList)
    from by simp [expectChar]]
  simp only []
  rw [show (pad2 s).toList = (pad2 s).toList ++ ([] : List Char) from by simp]
  rw [readFixed_pad2 s [] hs]
  simp only [List.isEmpty_nil, Bool.true_and]

/-- Every month's day count is at most 31. -/
theorem daysInMonth_le_31 (y m : Nat) : daysInMonth y m ≤ 31 := by
  unfold daysInMonth
  split_ifs <;> omega

/-- Formatting a valid timestamp with the desired format and parsing the
result under the same format round-trips. -/
theorem parseDesired_formatDesired (t : GoTime) (hy : t.year ≤ 9999)
    (hv : validGoTime t = true) :
    parseDesired (formatDesired t) = some t := by
  obtain ⟨y, mo, d, h, mi, s⟩ := t
  have hb := hv
  simp only [validGoTime, Bool.and_eq_true, decide_eq_true_eq] at hb
  have hdm : daysInMonth y mo ≤ 31 := daysInMonth_le_31 y mo
  unfold parseDesired
  rw [parseWithSeps_eval '-' '.' y mo d h mi s (formatDesired ⟨y, mo, d, h, mi, s⟩)
    hy (by omega) (by omega) (by omega) (by omega) (by omega) rfl]
  rw [if_pos hv]

/-! ## Orchestrator claims -/

/-- C1: when the backup snapshot fails, `main` aborts fatally before
processing any file — the outcome is `fatalBackup`, no rename occurs and
the filesystem is untouched; conversely, a completed run (which is the
only way renames happen) implies the backup succeeded. -/
theorem c1_backup_failure_fatal_before_renames (cfg : RunConfig) (fs0 : FS) :
    (cfg.backupFails = true → runMain cfg fs0 = (.fatalBackup, fs0))
    ∧ (∀ evs removed oc bc fsF,
        runMain cfg fs0 = (.completed evs removed oc bc, fsF) →
        cfg.backupFails = false) := by
  constructor
  · intro h
    simp [runMain, h]
  · intro evs removed oc bc fsF h
    cases hcb : cfg.backupFails with
    | false => rfl
    | true => simp [runMain, hcb] at h

/-- Witness for C1 at a concrete failing-backup configuration. -/
def cfg1 : RunConfig where
  root := "/d"
  backupFails := true
  exifOf := fun _ => .error "unreadable"
  videoOf := fun _ => .error "unreadable"

theorem c1_backup_failure_fatal_before_renames_witness :
    runMain cfg1 [("/d/a.jpg", 1)] = (.fatalBackup, [("/d/a.jpg", 1)]) :=
  (c1_backup_failure_fatal_before_renames cfg1 [("/d/a.jpg", 1)]).1 rfl

/-- Filtering out everything under the backup root leaves nothing to
enumerate under the backup root. -/
theorem recurseFiles_filter_out (fs : FS) (dir : String) :
    recurseFiles (fs.filter fun pc => !underDir dir pc.1) dir = [] := by
  unfold recurseFiles
  rw [List.filter_filter]
  have e : (fun (pc : String × Nat) => underDir dir pc.1 && !underDir dir pc.1)
      = fun _ => false := by
    funext pc
    cases underDir dir pc.1 <;> rfl
  rw [e]
  simp

/-- C5: after processing, `main` compares the filtered-file counts of the
original and backup trees; exactly when they are equal it removes the
backup tree (nothing remains under the backup root), and otherwise it
keeps the filesystem as is and reports both counts in the outcome. -/
theorem c5_backup_count_verification (cfg : RunConfig) (fs0 fs1 fs2 : FS)
    (broot : String) (evs : List (String × String))
    (hb : cfg.backupFails = false)
    (h1 : backupDirectory fs0 cfg.root = (fs1, broot))
    (h2 : runFiles cfg (recurseFiles fs1 cfg.root) fs1 = (fs2, evs)) :
    (countFilteredFiles (recurseFiles fs2 cfg.root)
        = countFilteredFiles (recurseFiles fs2 broot) →
      runMain cfg fs0
        = (.completed evs true (countFilteredFiles (recurseFiles fs2 cfg.root))
            (countFilteredFiles (recurseFiles fs2 broot)),
           fs2.filter fun pc => !underDir broot pc.1)
      ∧ recurseFiles (fs2.filter fun pc => !underDir broot pc.1) broot = [])
    ∧ (countFilteredFiles (recurseFiles fs2 cfg.root)
        ≠ countFilteredFiles (recurseFiles fs2 broot) →
      runMain cfg fs0
        = (.completed evs false (countFilteredFiles (recurseFiles fs2 cfg.root))
            (countFilteredFiles (recurseFiles fs2 broot)), fs2)) := by
  have hm : runMain cfg fs0
      = if countFilteredFiles (recurseFiles fs2 cfg.root)
          = countFilteredFiles (recurseFiles fs2 broot) then
          (.completed evs true (countFilteredFiles (recurseFiles fs2 cfg.root))
            (countFilteredFiles (recurseFiles fs2 broot)),
           fs2.filter fun pc => !underDir broot pc.1)
        else
          (.completed evs false (countFilteredFiles (recurseFiles fs2 cfg.root))
            (countFilteredFiles (recurseFiles fs2 broot)), fs2) := by
    unfold runMain
    rw [hb]
    simp only [Bool.false_eq_true, if_false, h1]
    simp only [h2]
  constructor
  · intro hc
    rw [hm, if_pos hc]
    exact ⟨rfl, recurseFiles_filter_out fs2 broot⟩
  · intro hc
    rw [hm, if_neg hc]

/-- Witness scenario for C5: one image whose EXIF cannot be decoded, so
nothing is renamed and the counts match, and the backup is removed. -/
def cfg5 : RunConfig where
  root := "/d"
  backupFails := false
  exifOf := fun _ => .error "no exif"
  videoOf := fun _ => .error "no video"

theorem c5_backup_count_verification_witness :
    runMain cfg5 [("/d/a.jpg", 1)] = (.completed [] true 1 1, [("/d/a.jpg", 1)]) := by
  have h := (c5_backup_count_verification cfg5 [("/d/a.jpg", 1)]
    [("/d/a.jpg", 1), ("/d - Backup Exif/a.jpg", 1)]
    [("/d/a.jpg", 1), ("/d - Backup Exif/a.jpg", 1)]
    "/d - Backup Exif" [] rfl (by decide) (by decide)).1 (by decide)
  rw [h.1]
  decide

/-! ## Idempotence (C4) -/

/-- The concrete two-file scenario for C4: one file to be renamed and one
file already carrying the formatted name, with identical EXIF timestamps. -/
def cfg4 : RunConfig where
  root := "/d"
  backupFails := false
  exifOf := fun _ => .ok [("DateTimeOriginal", "2020:01:01 00:00:00")]
  videoOf := fun _ => .error "not a video"

def fs4 : FS := [("/d/a.jpg", 1), ("/d/2020-01-01 00.00.00.jpg", 2)]

/-- C4 counterexample: running the pipeline a second time on the state
produced by a successful first run DOES perform a rename.  The first run
resolves a collision by renaming `a.jpg` to `2020-01-01 00.00.00-1.jpg`;
that base name does not parse under the desired format, so the second run
processes it again and renames it to `2020-01-01 00.00.00-2.jpg`. -/
theorem c4_counterexample_second_run_renames :
    (runMain cfg4 fs4).1
      = .completed [("/d/a.jpg", "/d/2020-01-01 00.00.00-1.jpg")] true 2 2
    ∧ (runMain cfg4 (runMain cfg4 fs4).2).1
      = .completed
          [("/d/2020-01-01 00.00.00-1.jpg", "/d/2020-01-01 00.00.00-2.jpg")]
          true 2 2
    ∧ parseDesired "2020-01-01 00.00.00-1" = none := by
  refine ⟨by decide, by decide, by decide⟩

/-- C4 (amended): files whose base name (without the lower-cased
extension) parses under the desired format are skipped by the orchestrator
before metadata resolution, and a file named exactly by `formatDesired`
(no collision suffix) always parses back to the same timestamp — so
first-run outputs without a collision suffix cause no second-run rename.
Outputs that received a `-n` collision suffix do not parse and may be
renamed again (see the counterexample). -/
theorem c4_amended_skip_guard_and_roundtrip :
    (∀ (cfg : RunConfig) (f : String) (rest : List String) (fs : FS),
      mainDisposition f = .alreadyNamed →
      runFiles cfg (f :: rest) fs = runFiles cfg rest fs)
    ∧ (∀ f : String,
        (inArray (trimPre (strToUpper (filepathExt f)) ".") pictureExtensions
          || inArray (trimPre (strToUpper (filepathExt f)) ".") movieExtensions) = true →
        (parseDesired (trimSuffix (filepathBase f)
          ("." ++ strToLower (trimPre (strToUpper (filepathExt f)) ".")))).isSome
          = true →
        mainDisposition f = .alreadyNamed)
    ∧ (∀ t : GoTime, t.year ≤ 9999 → validGoTime t = true →
        parseDesired (formatDesired t) = some t) := by
  refine ⟨?_, ?_, ?_⟩
  · intro cfg f rest fs h
    simp only [runFiles, h]
  · intro f h1 h2
    simp only [mainDisposition, h1, if_true, h2]
  · intro t hy hv
    exact parseDesired_formatDesired t hy hv

/-- Witness for the amended C4: the skip guard fires on a first-run output
named by the bare formatted timestamp, and the round trip holds at a
concrete timestamp. -/
theorem c4_amended_skip_guard_and_roundtrip_witness :
    mainDisposition "/d/2020-01-01 00.00.00.jpg" = .alreadyNamed
    ∧ parseDesired (formatDesired ⟨2020, 1, 1, 0, 0, 0⟩)
        = some ⟨2020, 1, 1, 0, 0, 0⟩ := by
  refine ⟨?_, ?_⟩
  · exact (c4_amended_skip_guard_and_roundtrip).2.1 "/d/2020-01-01 00.00.00.jpg"
      (by decide) (by decide)
  · exact (c4_amended_skip_guard_and_roundtrip).2.2 ⟨2020, 1, 1, 0, 0, 0⟩
      (by decide) (by decide)

/-! ## Witnesses for the atom-walker claims -/

/-- Witness for C3: one skipped `free` atom with a 3-byte payload, then
`moov`/`mvhd` and creation time 2082844900 (100 seconds past the Unix
epoch); derived by applying the theorem at this concrete container. -/
theorem c3_walker_returns_creation_time_witness :
    getVideoCreationTimeMetadata 2
        ⟨encodeAtoms [⟨[102, 114, 101, 101], [9, 9, 9]⟩]
            ++ ([0, 0, 0, 0] ++ (moovTag ++ ([0, 0, 0, 0] ++ (mvhdTag
            ++ ([1, 2, 3, 4] ++ (beBytes4 2082844900 ++ [])))))), 0⟩
      = .success ((2082844900 : Int) - appleEpochAdjustment) := by
  have h := c3_walker_returns_creation_time [⟨[102, 114, 101, 101], [9, 9, 9]⟩]
    (by decide) [0, 0, 0, 0] [0, 0, 0, 0] [1, 2, 3, 4] [] rfl rfl rfl
    2082844900 (by norm_num)
  exact h

/-- Witness for C9: a moov atom whose first child is `cmov` yields the
compressed-container error; derived by applying the theorem there. -/
theorem c9_non_mvhd_child_typed_error_witness :
    getVideoCreationTimeMetadata 1
        ⟨encodeAtoms [] ++ ([0, 0, 0, 0] ++ (moovTag ++ ([0, 0, 0, 0]
            ++ (cmovTag ++ [])))), 0⟩
      = .failure "Compressed video" := by
  have h := c9_non_mvhd_child_typed_error [] (by decide) [0, 0, 0, 0] [0, 0, 0, 0]
    cmovTag [] rfl rfl (by decide) (by decide)
  exact h.trans (by decide)

end MediaRenamer
